import Mathlib

/-!
Shallow embedding of the CRDP multiplexor
(src/chrome/crdpMultiplexing/crdpMultiplexor.ts).

Strings from the source are modelled as lists of characters (`Str`), so
that the JavaScript string operations used by the source
(split on ".", endsWith, indexOf-as-substring-test) become structurally
recursive, kernel-evaluable functions. Message ids are modelled as
naturals, per the protocol assumption recorded in the source that
client-issued ids are non-negative integers. A parsed JSON message is
modelled as its observable fields: the optional numeric id, the optional
method string, and a bag of remaining fields that the multiplexor never
inspects and that JSON re-serialization preserves.

Thrown errors are modelled as explicit error values; because a JavaScript
throw does not undo earlier field mutations, stateful operations return
the state reached at the moment of the throw.
-/

abbrev Str := List Char

/-- Identifier standing for a JavaScript callback function reference. -/
abbrev Callback := Nat

/-- JavaScript String.prototype.split with separator ".":
"a.b" becomes ["a","b"], "" becomes [""], "a..b" becomes ["a","","b"]. -/
def splitOnDot : Str → List Str
  | [] => [[]]
  | c :: cs =>
    match splitOnDot cs with
    | [] => [[]]
    | r :: rs => if c = '.' then [] :: (r :: rs) else (c :: r) :: rs

/-- JavaScript s.indexOf(pat) >= 0: pat occurs contiguously in s
(always true for the empty pattern). -/
def occursIn (pat : Str) : Str → Bool
  | [] => pat.isEmpty
  | c :: rest => pat.isPrefixOf (c :: rest) || occursIn pat rest

/-- The distinguished error conditions surfaced by throwCriticalError /
throw in the source. -/
inductive MuxError where
  | malformedMessage
  | malformedMethodName (method : Str)
  | unknownChannelForResponse (encodedId : Nat)
  | channelSentMessageWithoutId
  | channelLimitExceeded
deriving DecidableEq

/-- A parsed wire message: optional numeric id, optional method string,
and the remaining fields, never inspected and preserved verbatim. -/
structure Message where
  id? : Option Nat
  method? : Option Str
  rest : String
deriving DecidableEq

/-- Source function extractDomain: the part before the dot of a
"Domain.member" method; throws when the method does not split into
exactly two dot-separated parts. -/
def extractDomain (method : Str) : Except MuxError Str :=
  let methodParts := splitOnDot method
  if methodParts.length = 2 then .ok (methodParts.headD [])
  else .error (.malformedMethodName method)

/-- Source function encodifyChannel. -/
def encodifyChannel (channelId : Nat) (id : Nat) : Nat :=
  id * 10 + channelId

/-- Source function decodifyChannelId. -/
def decodifyChannelId (encodifiedId : Nat) : Nat :=
  encodifiedId % 10

/-- Source function decodifyId. -/
def decodifyId (encodifiedId : Nat) : Nat :=
  encodifiedId / 10

/-- State of one CRDPChannel: name, single-digit id, the registered
"message" callbacks in registration order, the set of enabled domains
(a JavaScript object whose values are only ever set to true), and the
per-domain pending buffers; the buffer table is None once the channel
has been tombstoned (the source assigns null to it). -/
structure CRDPChannel where
  name : Str
  id : Nat
  messageCallbacks : List Callback
  enabledDomains : List Str
  pendingMessagesForDomain : Option (List (Str × List Message))
deriving DecidableEq

/-- Lookup of a JavaScript object property: value of the first (only)
entry with the given key. -/
def lookupDomain (table : List (Str × List Message)) (domain : Str) :
    Option (List Message) :=
  (table.find? (fun p => p.1 = domain)).map (fun p => p.2)

/-- JavaScript delete object[key]. -/
def eraseDomain (table : List (Str × List Message)) (domain : Str) :
    List (Str × List Message) :=
  table.filter (fun p => ¬ p.1 = domain)

/-- Setting enabledDomains[domain] = true. -/
def enableDomain (enabled : List Str) (domain : Str) : List Str :=
  if enabled.contains domain then enabled else enabled ++ [domain]

/-- Source CRDPChannel.storeMessageForLater: create the domain's buffer
if absent, then push the payload. -/
def storeMessageForLater (table : List (Str × List Message))
    (domain : Str) (messageData : Message) : List (Str × List Message) :=
  match table.find? (fun p => p.1 = domain) with
  | none => table ++ [(domain, [messageData])]
  | some _ =>
      table.map (fun p => if p.1 = domain then (p.1, p.2 ++ [messageData]) else p)

/-- Source CRDPChannel.callMessageCallbacks: hand the payload to every
registered callback, in registration order. The result lists the
(callback, payload) delivery events produced. -/
def callMessageCallbacks (ch : CRDPChannel) (messageData : Message) :
    List (Callback × Message) :=
  ch.messageCallbacks.map (fun cb => (cb, messageData))

/-- Source CRDPChannel.callDomainMessageCallbacks: deliver live when the
domain is enabled; otherwise buffer unless the buffer table has been
nulled out (tombstoned), in which case drop. Returns the new channel
state and the delivery events. -/
def callDomainMessageCallbacks (ch : CRDPChannel) (domain : Str)
    (messageData : Message) : CRDPChannel × List (Callback × Message) :=
  if ch.enabledDomains.contains domain then
    (ch, callMessageCallbacks ch messageData)
  else
    match ch.pendingMessagesForDomain with
    | some table =>
        ({ ch with
            pendingMessagesForDomain := some (storeMessageForLater table domain messageData) },
         [])
    | none => (ch, [])

/-- Source CRDPMultiplexor.send, observed at the transport: an outgoing
message without an id throws (and the transport send on the following
line is never reached); otherwise the id is rewritten to
encodifyChannel(channel.id, id) and the re-serialized message goes out.
No channel or multiplexor state is touched. -/
def CRDPMultiplexor.send (channelId : Nat) (msg : Message) :
    Except MuxError Message :=
  match msg.id? with
  | some i => .ok { msg with id? := some (encodifyChannel channelId i) }
  | none => .error .channelSentMessageWithoutId

/-- Source CRDPChannel.sendUnsentPendingMessages: when the buffer table
is not tombstoned, the just-enabled domain has a buffer, and at least
one message callback is registered, delete the domain's buffer and
replay each buffered payload through callDomainMessageCallbacks. -/
def sendUnsentPendingMessages (ch : CRDPChannel) (domain : Str) :
    CRDPChannel × List (Callback × Message) :=
  match ch.pendingMessagesForDomain with
  | none => (ch, [])
  | some table =>
    match lookupDomain table domain with
    | none => (ch, [])
    | some pendingMessagesData =>
      if ch.messageCallbacks.length ≠ 0 then
        let start : CRDPChannel :=
          { ch with pendingMessagesForDomain := some (eraseDomain table domain) }
        pendingMessagesData.foldl
          (fun acc m =>
            let step := callDomainMessageCallbacks acc.1 domain m
            (step.1, acc.2 ++ step.2))
          (start, ([] : List (Callback × Message)))
      else (ch, [])

/-- Result of CRDPChannel.send: the channel state reached (mutations
made before a throw persist), the message put on the shared transport
if any, the delivery events replayed from the pending buffer, and the
error thrown if any. -/
structure SendResult where
  channel : CRDPChannel
  transported : Option Message
  delivered : List (Callback × Message)
  error : Option MuxError
deriving DecidableEq

/-- Source CRDPChannel.send: detect a ".enable" method, mark its domain
enabled, forward through the multiplexor (rewriting the id or throwing
when there is none), then flush that domain's pending buffer. A throw
in extractDomain happens before the domain is marked; a throw in the
multiplexor send happens after it (the mark persists) and prevents the
flush. -/
def CRDPChannel.send (ch : CRDPChannel) (msg : Message) : SendResult :=
  let forward := fun (c : CRDPChannel) =>
    match CRDPMultiplexor.send c.id msg with
    | .ok out => ({ channel := c, transported := some out,
                    delivered := [], error := none } : SendResult)
    | .error e => ({ channel := c, transported := none,
                     delivered := [], error := some e } : SendResult)
  match msg.method? with
  | some method =>
    if (".enable".toList).isSuffixOf method then
      match extractDomain method with
      | .error e =>
          { channel := ch, transported := none, delivered := [], error := some e }
      | .ok domain =>
        let ch1 := { ch with enabledDomains := enableDomain ch.enabledDomains domain }
        match CRDPMultiplexor.send ch1.id msg with
        | .error e =>
            { channel := ch1, transported := none, delivered := [], error := some e }
        | .ok out =>
          let flushed := sendUnsentPendingMessages ch1 domain
          { channel := flushed.1, transported := some out,
            delivered := flushed.2, error := none }
    else forward ch
  | none => forward ch

/-- State of the CRDPMultiplexor: the ordered channel list (index is the
channel id) and the optional channel-name substring used to withhold
Debugger notifications (constructor argument
_channelWithNoDebuggerNotification). -/
structure CRDPMultiplexor where
  channels : List CRDPChannel
  channelWithNoDebuggerNotification : Option Str
deriving DecidableEq

/-- The suppression test on line 87 of the source, in evaluation order:
the configured substring is truthy (present and non-empty), it occurs in
the channel's name, and the string "Debugger" occurs anywhere in the
method name (an indexOf test on the whole method, not an equality test
on its domain part). -/
def suppressCheck (configured : Option Str) (channelName method : Str) : Bool :=
  match configured with
  | none => false
  | some sub => !sub.isEmpty && occursIn sub channelName && occursIn ("Debugger".toList) method

/-- The notification fan-out loop of onDomainNotification: each channel
is either skipped by the suppression test (state kept, nothing delivered
or buffered) or handed to its domain-gated delivery. The second result
lists, position by position, the delivery events each channel produced. -/
def fanOut (configured : Option Str) (domain method : Str) (msg : Message) :
    List CRDPChannel → List CRDPChannel × List (List (Callback × Message))
  | [] => ([], [])
  | ch :: rest =>
    let tail := fanOut configured domain method msg rest
    if suppressCheck configured ch.name method then
      (ch :: tail.1, [] :: tail.2)
    else
      let gated := callDomainMessageCallbacks ch domain msg
      (gated.1 :: tail.1, gated.2 :: tail.2)

/-- Result of processing one inbound transport message: the channel
states reached, the delivery events per channel (position by position),
and the error thrown if any. -/
structure InboundResult where
  channels : List CRDPChannel
  delivered : List (List (Callback × Message))
  error : Option MuxError
deriving DecidableEq

/-- Source CRDPMultiplexor.onResponseMessage: route by the decoded
channel id; rewrite the id and deliver to only that channel's
callbacks, or throw when no channel exists at the decoded index. -/
def onResponseMessage (mux : CRDPMultiplexor) (encodedId : Nat) (msg : Message) :
    InboundResult :=
  match mux.channels[decodifyChannelId encodedId]? with
  | none =>
      { channels := mux.channels,
        delivered := mux.channels.map (fun _ => []),
        error := some (.unknownChannelForResponse encodedId) }
  | some ch =>
      let decoded := { msg with id? := some (decodifyId encodedId) }
      { channels := mux.channels,
        delivered := (List.range mux.channels.length).map
          (fun k => if k = decodifyChannelId encodedId then callMessageCallbacks ch decoded else []),
        error := none }

/-- Source CRDPMultiplexor.onDomainNotification: extract the domain
(throwing on a malformed method, before any channel is touched), then
fan out to every channel in creation order. -/
def onDomainNotification (mux : CRDPMultiplexor) (method : Str) (msg : Message) :
    InboundResult :=
  match extractDomain method with
  | .error e =>
      { channels := mux.channels,
        delivered := mux.channels.map (fun _ => []),
        error := some e }
  | .ok domain =>
      let fanned := fanOut mux.channelWithNoDebuggerNotification domain method msg mux.channels
      { channels := fanned.1, delivered := fanned.2, error := none }

/-- Source CRDPMultiplexor.onMessage: a message with an id is a
response, else one with a truthy method is a notification, else throw. -/
def onMessage (mux : CRDPMultiplexor) (msg : Message) : InboundResult :=
  match msg.id? with
  | some encodedId => onResponseMessage mux encodedId msg
  | none =>
    match msg.method? with
    | some method =>
      if method.isEmpty then
        { channels := mux.channels,
          delivered := mux.channels.map (fun _ => []),
          error := some .malformedMessage }
      else onDomainNotification mux method msg
    | none =>
        { channels := mux.channels,
          delivered := mux.channels.map (fun _ => []),
          error := some .malformedMessage }

/-- Source CRDPMultiplexor.addChannel: throw at 10 existing channels;
otherwise create a channel whose id is the current count, with no
callbacks, no enabled domains and an empty (non-null) buffer table,
and append it. -/
def addChannel (mux : CRDPMultiplexor) (channelName : Str) :
    Except MuxError (CRDPChannel × CRDPMultiplexor) :=
  if mux.channels.length ≥ 10 then .error .channelLimitExceeded
  else
    let ch : CRDPChannel :=
      { name := channelName, id := mux.channels.length,
        messageCallbacks := [], enabledDomains := [],
        pendingMessagesForDomain := some [] }
    .ok (ch, { mux with channels := mux.channels ++ [ch] })

/-- Iterate addChannel over a list of names, threading the multiplexor;
None as soon as one call throws. -/
def addChannels (mux : CRDPMultiplexor) : List Str → Option CRDPMultiplexor
  | [] => some mux
  | n :: rest =>
    match addChannel mux n with
    | .ok r => addChannels r.2 rest
    | .error _ => none

/-- JavaScript Array.prototype.indexOf: position of the first
occurrence, or -1. -/
def jsIndexOf : List Callback → Callback → Int
  | [], _ => -1
  | c :: rest, cb =>
    if c = cb then 0
    else if jsIndexOf rest cb < 0 then -1 else jsIndexOf rest cb + 1

/-- JavaScript Array.prototype.splice(start, 1): a negative start counts
from the end (clamped at 0), a start past the end removes nothing. -/
def jsSpliceRemoveOne (l : List Callback) (start : Int) : List Callback :=
  let actual : Nat :=
    if start < 0 then (start + l.length).toNat else min start.toNat l.length
  l.take actual ++ l.drop (actual + 1)

/-- Source CRDPChannel.removeListener for the "message" event:
splice(indexOf(cb), 1) on the callback list. -/
def removeListenerMessage (callbacks : List Callback) (cb : Callback) :
    List Callback :=
  jsSpliceRemoveOne callbacks (jsIndexOf callbacks cb)

/-- Source constant CRDPChannel.timeToPreserveMessagesInMillis. -/
def timeToPreserveMessagesInMillis : Nat := 60 * 1000

/-- A channel together with the deadlines (absolute milliseconds) of the
discard timeouts currently scheduled against it; the source schedules
one with setTimeout whenever on("message") finds the callback list
empty. -/
structure TimedChannel where
  ch : CRDPChannel
  timers : List Nat
deriving DecidableEq

/-- Source CRDPChannel.discardUnsentPendingMessages: null out the buffer
table (tombstone the channel). -/
def discardUnsentPendingMessages (ch : CRDPChannel) : CRDPChannel :=
  { ch with pendingMessagesForDomain := none }

/-- Fire every scheduled discard whose deadline has been reached: the
event loop runs due timeouts before handing the channel any event
timestamped at or after their deadline. -/
def fireDueTimers (now : Nat) (s : TimedChannel) : TimedChannel :=
  if s.timers.any (fun d => d ≤ now) then
    { ch := discardUnsentPendingMessages s.ch,
      timers := s.timers.filter (fun d => ¬ d ≤ now) }
  else s

/-- Source CRDPChannel.on for the "message" event at time now: schedule
a discard at now + timeToPreserveMessagesInMillis when the callback list
is empty, then push the callback. -/
def channelOn (s : TimedChannel) (now : Nat) (cb : Callback) : TimedChannel :=
  { ch := { s.ch with messageCallbacks := s.ch.messageCallbacks ++ [cb] },
    timers :=
      if s.ch.messageCallbacks.length = 0 then
        s.timers ++ [now + timeToPreserveMessagesInMillis]
      else s.timers }

/-- The events a single channel can observe: a "message" subscription,
a "message" unsubscription, an outgoing send by its consumer, an inbound
notification handed to its domain gate by the fan-out (carrying the raw
method), and an inbound response routed to it. -/
inductive ChannelOp where
  | onMessage (cb : Callback)
  | removeMessageListener (cb : Callback)
  | sendMsg (msg : Message)
  | domainNotify (method : Str) (msg : Message)
  | responseDelivery (msg : Message)
deriving DecidableEq

/-- The inbound payload an operation carries, if any; only such a
payload can ever reach a callback once the channel is tombstoned. -/
def opPayload : ChannelOp → Option Message
  | .sendMsg m => some m
  | .domainNotify _ m => some m
  | .responseDelivery m => some m
  | _ => none

/-- Apply one channel event to a state whose due timeouts have already
run, producing the delivery events it caused. -/
def applyOp (s0 : TimedChannel) (now : Nat) : ChannelOp →
    TimedChannel × List (Callback × Message)
  | .onMessage cb => (channelOn s0 now cb, [])
  | .removeMessageListener cb =>
      ({ s0 with ch := { s0.ch with
          messageCallbacks := removeListenerMessage s0.ch.messageCallbacks cb } }, [])
  | .sendMsg msg =>
      let r := s0.ch.send msg
      ({ s0 with ch := r.channel }, r.delivered)
  | .domainNotify method msg =>
      match extractDomain method with
      | .error _ => (s0, [])
      | .ok domain =>
          let gated := callDomainMessageCallbacks s0.ch domain msg
          ({ s0 with ch := gated.1 }, gated.2)
  | .responseDelivery msg => (s0, callMessageCallbacks s0.ch msg)

/-- One timestamped step of a channel: run due discard timeouts first,
then the event itself. -/
def stepAt (s : TimedChannel) (now : Nat) (op : ChannelOp) :
    TimedChannel × List (Callback × Message) :=
  applyOp (fireDueTimers now s) now op

/-- Run a timestamped trace of operations, collecting every delivery
event produced along the way. -/
def execTrace (s : TimedChannel) :
    List (Nat × ChannelOp) → TimedChannel × List (Callback × Message)
  | [] => (s, [])
  | (t, op) :: rest =>
    let first := stepAt s t op
    let later := execTrace first.1 rest
    (later.1, first.2 ++ later.2)

/-- A notification for the Network domain. -/
def netNotifyMsg : Message :=
  { id? := none, method? := some ("Network.requestWillBeSent".toList), rest := "" }

/-- A Network.enable request with id 1. -/
def netEnableMsg : Message :=
  { id? := some 1, method? := some ("Network.enable".toList), rest := "" }

/-- A Network.enable call with no id field. -/
def noIdEnableMsg : Message :=
  { id? := none, method? := some ("Network.enable".toList), rest := "" }

/-- A notification in the Runtime domain whose method mentions the word
Debugger. -/
def runtimeDebuggerMsg : Message :=
  { id? := none, method? := some ("Runtime.evalDebugger".toList), rest := "" }

/-- A channel with a buffered Network notification and no subscriber. -/
def bufferedToolsChannel : CRDPChannel :=
  { name := "tools".toList, id := 1, messageCallbacks := [],
    enabledDomains := [],
    pendingMessagesForDomain := some [("Network".toList, [netNotifyMsg])] }

/-- A channel with a buffered Network notification and one subscriber. -/
def subscribedToolsChannel : CRDPChannel :=
  { name := "tools".toList, id := 1, messageCallbacks := [4],
    enabledDomains := [],
    pendingMessagesForDomain := some [("Network".toList, [netNotifyMsg])] }

/-- Channel 0 of the sample multiplexor. -/
def debuggerChannel0 : CRDPChannel :=
  { name := "debugger".toList, id := 0, messageCallbacks := [1],
    enabledDomains := [], pendingMessagesForDomain := some [] }

/-- Channel 1 of the sample multiplexor. -/
def toolsChannel1 : CRDPChannel :=
  { name := "tools".toList, id := 1, messageCallbacks := [2],
    enabledDomains := [], pendingMessagesForDomain := some [] }

/-- A multiplexor with two channels, Debugger notifications withheld
from channels whose name contains "tools". -/
def sampleMux : CRDPMultiplexor :=
  { channels := [debuggerChannel0, toolsChannel1],
    channelWithNoDebuggerNotification := some ("tools".toList) }

/-- A timed channel never subscribed to: buffered payload, no callbacks,
no scheduled discard. -/
def virginTimedChannel : TimedChannel :=
  { ch := bufferedToolsChannel, timers := [] }

/-- A timed channel with a discard scheduled at 60000 ms. -/
def scheduledTimedChannel : TimedChannel :=
  { ch := { bufferedToolsChannel with messageCallbacks := [9] },
    timers := [60000] }

/-- A tombstoned timed channel. -/
def tombstonedTimedChannel : TimedChannel :=
  { ch := { bufferedToolsChannel with pendingMessagesForDomain := none },
    timers := [] }

/-- A freshly constructed multiplexor with no channels. -/
def emptyMux : CRDPMultiplexor :=
  { channels := [], channelWithNoDebuggerNotification := none }

/-- Ten channel names. -/
def tenNames : List Str := List.replicate 10 ("x".toList)

/-! Helper lemmas shared by the claim theorems. -/

theorem enableDomain_mem (enabled : List Str) (domain : Str) :
    domain ∈ enableDomain enabled domain := by
  unfold enableDomain
  by_cases h : domain ∈ enabled
  · simp [h]
  · simp [h]

theorem enableDomain_contains (enabled : List Str) (domain : Str) :
    (enableDomain enabled domain).contains domain = true := by
  simpa using enableDomain_mem enabled domain

theorem lookupDomain_eraseDomain (table : List (Str × List Message)) (domain : Str) :
    lookupDomain (eraseDomain table domain) domain = none := by
  simp [lookupDomain, eraseDomain, List.find?_filter]

/-- C1: for every channel id c in 0..9 and every non-negative request id
i, decodifyChannelId and decodifyId invert encodifyChannel. -/
theorem encodify_decodify_roundtrip (c i : Nat) (hc : c < 10) :
    decodifyChannelId (encodifyChannel c i) = c ∧
    decodifyId (encodifyChannel c i) = i := by
  unfold decodifyChannelId decodifyId encodifyChannel
  omega

theorem encodify_decodify_roundtrip_witness :
    3 < 10 ∧ decodifyChannelId (encodifyChannel 3 7) = 3 ∧
    decodifyId (encodifyChannel 3 7) = 7 :=
  ⟨by decide, encodify_decodify_roundtrip 3 7 (by decide)⟩

/-- C7: sending a message with no id through the multiplexor throws
channelSentMessageWithoutId and puts nothing on the transport; a message
with id i goes out with id rewritten to i*10 + channel id, its method
and remaining fields untouched; multiplexor and channel state is not
involved at all (the function reads only the channel id). -/
theorem multiplexor_send_id_rewrite (ch : CRDPChannel) (msg : Message) :
    (msg.id? = none →
      CRDPMultiplexor.send ch.id msg = .error .channelSentMessageWithoutId) ∧
    (∀ i, msg.id? = some i →
      CRDPMultiplexor.send ch.id msg =
        .ok { id? := some (i * 10 + ch.id), method? := msg.method?, rest := msg.rest }) := by
  constructor
  · intro h
    simp [CRDPMultiplexor.send, h]
  · intro i h
    simp [CRDPMultiplexor.send, h, encodifyChannel]

theorem multiplexor_send_id_rewrite_witness :
    CRDPMultiplexor.send toolsChannel1.id netEnableMsg =
      .ok { id? := some 11, method? := some ("Network.enable".toList), rest := "" } := by
  have h := (multiplexor_send_id_rewrite toolsChannel1 netEnableMsg).2 1 rfl
  simpa [toolsChannel1, netEnableMsg] using h

/-- C10: CRDPChannel.send of an id-less ".enable" message marks the
method's domain enabled and then throws channelSentMessageWithoutId
from the multiplexor send: the enabled-domain mutation survives the
failure, so the operation is not atomic on error; nothing reaches the
transport and no buffered message is flushed. -/
theorem enable_without_id_nonatomic (ch : CRDPChannel) (msg : Message)
    (m domain : Str) (hm : msg.method? = some m)
    (hsuf : (".enable".toList).isSuffixOf m = true)
    (hdom : extractDomain m = .ok domain) (hid : msg.id? = none) :
    (ch.send msg).error = some .channelSentMessageWithoutId ∧
    (ch.send msg).transported = none ∧
    (ch.send msg).delivered = [] ∧
    (ch.send msg).channel.enabledDomains.contains domain = true ∧
    (ch.send msg).channel.pendingMessagesForDomain = ch.pendingMessagesForDomain ∧
    (ch.send msg).channel.messageCallbacks = ch.messageCallbacks := by
  unfold CRDPChannel.send
  rw [hm]
  simp only [hsuf, if_true, hdom]
  simp [CRDPMultiplexor.send, hid, enableDomain_mem]

theorem enable_without_id_nonatomic_witness :
    (bufferedToolsChannel.send noIdEnableMsg).error = some .channelSentMessageWithoutId ∧
    (bufferedToolsChannel.send noIdEnableMsg).transported = none ∧
    (bufferedToolsChannel.send noIdEnableMsg).delivered = [] ∧
    (bufferedToolsChannel.send noIdEnableMsg).channel.enabledDomains.contains
      ("Network".toList) = true ∧
    (bufferedToolsChannel.send noIdEnableMsg).channel.pendingMessagesForDomain =
      bufferedToolsChannel.pendingMessagesForDomain ∧
    (bufferedToolsChannel.send noIdEnableMsg).channel.messageCallbacks =
      bufferedToolsChannel.messageCallbacks :=
  enable_without_id_nonatomic bufferedToolsChannel noIdEnableMsg
    ("Network.enable".toList) ("Network".toList) rfl (by decide) rfl rfl

theorem find?_map_store_self (table : List (Str × List Message)) (domain : Str)
    (m : Message) (p0 : Str × List Message)
    (h : table.find? (fun p => p.1 = domain) = some p0) :
    (table.map (fun p => if p.1 = domain then (p.1, p.2 ++ [m]) else p)).find?
        (fun p => p.1 = domain) = some (p0.1, p0.2 ++ [m]) := by
  induction table with
  | nil => simp at h
  | cons q rest ih =>
    rw [List.map_cons]
    by_cases hq : q.1 = domain
    · rw [List.find?_cons_of_pos _ (by simpa using hq)] at h
      rw [if_pos hq]
      rw [List.find?_cons_of_pos _ (by simpa using hq)]
      cases h
      rfl
    · rw [List.find?_cons_of_neg _ (by simpa using hq)] at h
      rw [if_neg hq]
      rw [List.find?_cons_of_neg _ (by simpa using hq)]
      exact ih h

theorem lookupDomain_store_self (table : List (Str × List Message)) (domain : Str)
    (m : Message) :
    lookupDomain (storeMessageForLater table domain m) domain =
      some ((lookupDomain table domain).getD [] ++ [m]) := by
  unfold storeMessageForLater
  cases h : table.find? (fun p => p.1 = domain) with
  | none =>
    unfold lookupDomain
    rw [List.find?_append, h]
    simp [h]
  | some p0 =>
    unfold lookupDomain
    rw [find?_map_store_self table domain m p0 h, h]
    simp

theorem lookupDomain_map_store (table : List (Str × List Message)) (domain d2 : Str)
    (m : Message) (h : ¬ d2 = domain) :
    lookupDomain (table.map (fun p => if p.1 = domain then (p.1, p.2 ++ [m]) else p)) d2 =
      lookupDomain table d2 := by
  induction table with
  | nil => rfl
  | cons q rest ih =>
    rw [List.map_cons]
    unfold lookupDomain at ih ⊢
    by_cases hq2 : q.1 = d2
    · have hq : ¬ q.1 = domain := by rw [hq2]; exact h
      rw [if_neg hq]
      rw [List.find?_cons_of_pos _ (by simpa using hq2)]
      rw [List.find?_cons_of_pos _ (by simpa using hq2)]
    · by_cases hq : q.1 = domain
      · rw [if_pos hq]
        rw [List.find?_cons_of_neg _ (by simpa using hq2)]
        rw [List.find?_cons_of_neg _ (by simpa using hq2)]
        exact ih
      · rw [if_neg hq]
        rw [List.find?_cons_of_neg _ (by simpa using hq2)]
        rw [List.find?_cons_of_neg _ (by simpa using hq2)]
        exact ih

theorem lookupDomain_store_other (table : List (Str × List Message)) (domain d2 : Str)
    (m : Message) (h : ¬ d2 = domain) :
    lookupDomain (storeMessageForLater table domain m) d2 = lookupDomain table d2 := by
  unfold storeMessageForLater
  cases hf : table.find? (fun p => p.1 = domain) with
  | none =>
    unfold lookupDomain
    rw [List.find?_append]
    have hne : ¬ domain = d2 := fun hh => h hh.symm
    simp [hne]
  | some p0 => exact lookupDomain_map_store table domain d2 m h

/-- C5: the domain gate of a channel. With the domain enabled, the
payload goes to every current subscriber in registration order with no
state change; with the domain not enabled and the channel not
tombstoned, the payload is appended to the pending buffer of that
domain (created if absent), other domains' buffers are untouched, and
nothing is delivered; with the channel tombstoned and the domain not
enabled, the payload is dropped with no state change. -/
theorem domain_gated_delivery_cases (ch : CRDPChannel) (domain : Str) (msg : Message) :
    (ch.enabledDomains.contains domain = true →
       callDomainMessageCallbacks ch domain msg =
         (ch, ch.messageCallbacks.map (fun cb => (cb, msg)))) ∧
    (ch.enabledDomains.contains domain = false →
       ∀ table, ch.pendingMessagesForDomain = some table →
         (callDomainMessageCallbacks ch domain msg).2 = [] ∧
         (callDomainMessageCallbacks ch domain msg).1.pendingMessagesForDomain =
           some (storeMessageForLater table domain msg) ∧
         lookupDomain (storeMessageForLater table domain msg) domain =
           some ((lookupDomain table domain).getD [] ++ [msg]) ∧
         (∀ d2, ¬ d2 = domain →
            lookupDomain (storeMessageForLater table domain msg) d2 =
              lookupDomain table d2) ∧
         (callDomainMessageCallbacks ch domain msg).1.messageCallbacks =
           ch.messageCallbacks ∧
         (callDomainMessageCallbacks ch domain msg).1.enabledDomains =
           ch.enabledDomains) ∧
    (ch.enabledDomains.contains domain = false →
       ch.pendingMessagesForDomain = none →
       callDomainMessageCallbacks ch domain msg = (ch, [])) := by
  refine ⟨?_, ?_, ?_⟩
  · intro h
    simp at h
    simp [callDomainMessageCallbacks, h, callMessageCallbacks]
  · intro h table ht
    simp at h
    refine ⟨?_, ?_, lookupDomain_store_self table domain msg,
      fun d2 hd2 => lookupDomain_store_other table domain d2 msg hd2, ?_, ?_⟩
    all_goals simp [callDomainMessageCallbacks, h, ht]
  · intro h hnone
    simp at h
    simp [callDomainMessageCallbacks, h, hnone]

theorem domain_gated_delivery_cases_witness :
    (callDomainMessageCallbacks bufferedToolsChannel ("Network".toList) netNotifyMsg).2 = [] ∧
    (callDomainMessageCallbacks bufferedToolsChannel
        ("Network".toList) netNotifyMsg).1.pendingMessagesForDomain =
      some (storeMessageForLater [("Network".toList, [netNotifyMsg])]
        ("Network".toList) netNotifyMsg) := by
  have h := (domain_gated_delivery_cases bufferedToolsChannel
    ("Network".toList) netNotifyMsg).2.1 (by decide)
    [("Network".toList, [netNotifyMsg])] rfl
  exact ⟨h.1, h.2.1⟩

theorem jsIndexOf_not_mem (l : List Callback) (cb : Callback) (h : cb ∉ l) :
    jsIndexOf l cb = -1 := by
  induction l with
  | nil => rfl
  | cons c rest ih =>
    simp only [List.mem_cons, not_or] at h
    have hc : ¬ c = cb := fun hh => h.1 hh.symm
    unfold jsIndexOf
    rw [if_neg hc, ih h.2]
    norm_num

theorem jsIndexOf_nonneg_of_mem (l : List Callback) (cb : Callback) (h : cb ∈ l) :
    0 ≤ jsIndexOf l cb := by
  induction l with
  | nil => simp at h
  | cons c rest ih =>
    unfold jsIndexOf
    by_cases hc : c = cb
    · rw [if_pos hc]
    · rw [if_neg hc]
      have hr : cb ∈ rest := by
        rcases List.mem_cons.mp h with h1 | h2
        · exact absurd h1.symm hc
        · exact h2
      have := ih hr
      rw [if_neg (by omega)]
      omega

theorem jsSplice_neg_one (l : List Callback) :
    jsSpliceRemoveOne l (-1) = l.dropLast := by
  unfold jsSpliceRemoveOne
  rw [if_pos (by norm_num)]
  have h1 : ((-1 : Int) + l.length).toNat = l.length - 1 := by omega
  rw [h1]
  have h2 : l.drop (l.length - 1 + 1) = [] := by
    apply List.drop_eq_nil_of_le
    omega
  simp only [h2, List.append_nil, List.dropLast_eq_take]

theorem jsSplice_cons_succ (c : Callback) (rest : List Callback) (k : Int) (hk : 0 ≤ k) :
    jsSpliceRemoveOne (c :: rest) (k + 1) = c :: jsSpliceRemoveOne rest k := by
  unfold jsSpliceRemoveOne
  rw [if_neg (by omega), if_neg (by omega)]
  have h1 : (k + 1).toNat = k.toNat + 1 := by omega
  rw [h1]
  simp only [List.length_cons]
  rw [Nat.succ_min_succ]
  rw [List.take_succ_cons, List.drop_succ_cons]
  rfl

/-- C9 counterexample: removing the never-registered callback 1 from the
one-element subscriber list removes its last (only) element instead of
leaving the list unchanged, because indexOf returns -1 and
splice(-1, 1) deletes from the end. -/
theorem removeListener_unregistered_counterexample :
    removeListenerMessage [0] 1 = [] ∧ ¬ removeListenerMessage [0] 1 = [0] := by
  decide

/-- C9 amended: removeListener("message", cb) removes the first
occurrence of cb when cb is registered; when cb was never registered it
removes the last element of the subscriber list (leaving the list
unchanged only when it is already empty). -/
theorem removeListener_splice_behavior (l : List Callback) (cb : Callback) :
    (cb ∈ l → removeListenerMessage l cb = l.erase cb) ∧
    (cb ∉ l → removeListenerMessage l cb = l.dropLast) := by
  constructor
  · intro h
    induction l with
    | nil => simp at h
    | cons c rest ih =>
      unfold removeListenerMessage
      by_cases hc : c = cb
      · unfold jsIndexOf
        rw [if_pos hc]
        subst hc
        rw [List.erase_cons_head]
        unfold jsSpliceRemoveOne
        simp
      · have hr : cb ∈ rest := by
          rcases List.mem_cons.mp h with h1 | h2
          · exact absurd h1.symm hc
          · exact h2
        have hnn := jsIndexOf_nonneg_of_mem rest cb hr
        unfold jsIndexOf
        rw [if_neg hc, if_neg (by omega)]
        rw [jsSplice_cons_succ c rest _ hnn]
        rw [List.erase_cons_tail]
        · exact congrArg (c :: ·) (ih hr)
        · simp [hc]
  · intro h
    unfold removeListenerMessage
    rw [jsIndexOf_not_mem l cb h, jsSplice_neg_one]

theorem removeListener_splice_behavior_witness :
    removeListenerMessage [5, 6, 7] 6 = [5, 7] ∧
    removeListenerMessage [5, 6, 7] 9 = [5, 6] := by
  have h1 := (removeListener_splice_behavior [5, 6, 7] 6).1 (by decide)
  have h2 := (removeListener_splice_behavior [5, 6, 7] 9).2 (by decide)
  rw [h1, h2]
  decide

theorem addChannels_success (names : List Str) :
    ∀ (mux : CRDPMultiplexor), mux.channels.length + names.length ≤ 10 →
      ∃ r, addChannels mux names = some r ∧
        r.channels.length = mux.channels.length + names.length := by
  induction names with
  | nil =>
    intro mux h
    exact ⟨mux, rfl, by simp [addChannels]⟩
  | cons n rest ih =>
    intro mux h
    simp only [List.length_cons] at h
    have hlt : ¬ mux.channels.length ≥ 10 := by omega
    unfold addChannels addChannel
    rw [if_neg hlt]
    obtain ⟨r, hr, hlen⟩ := ih
      { mux with channels := mux.channels ++
          [{ name := n, id := mux.channels.length, messageCallbacks := [],
             enabledDomains := [], pendingMessagesForDomain := some [] }] }
      (by simp; omega)
    refine ⟨r, hr, ?_⟩
    rw [hlen]
    simp
    omega

/-- C6: addChannel succeeds whenever fewer than 10 channels exist,
returning a fresh channel whose id is the channel count at the time of
the call and appending it (the existing channels and the suppression
configuration are untouched); it throws channelLimitExceeded at 10
channels; hence from an empty multiplexor the first 10 calls succeed
and the 11th fails with the channel list still of length 10. -/
theorem addChannel_capacity (mux : CRDPMultiplexor) (nm : Str) :
    (mux.channels.length < 10 →
      addChannel mux nm =
        .ok ({ name := nm, id := mux.channels.length, messageCallbacks := [],
               enabledDomains := [], pendingMessagesForDomain := some [] },
             { channels := mux.channels ++
                 [{ name := nm, id := mux.channels.length, messageCallbacks := [],
                    enabledDomains := [], pendingMessagesForDomain := some [] }],
               channelWithNoDebuggerNotification :=
                 mux.channelWithNoDebuggerNotification })) ∧
    (10 ≤ mux.channels.length →
      addChannel mux nm = .error .channelLimitExceeded) ∧
    (∀ names : List Str, mux.channels = [] → names.length = 10 →
      ∃ full, addChannels mux names = some full ∧ full.channels.length = 10 ∧
        ∀ nm2, addChannel full nm2 = .error .channelLimitExceeded) := by
  refine ⟨?_, ?_, ?_⟩
  · intro h
    unfold addChannel
    rw [if_neg (by omega)]
  · intro h
    unfold addChannel
    rw [if_pos (by omega)]
  · intro names hempty hlen
    obtain ⟨full, hfull, hfulllen⟩ := addChannels_success names mux
      (by rw [hempty, hlen]; simp)
    rw [hempty] at hfulllen
    simp only [List.length_nil, Nat.zero_add] at hfulllen
    rw [hlen] at hfulllen
    refine ⟨full, hfull, hfulllen, fun nm2 => ?_⟩
    unfold addChannel
    rw [if_pos (by omega)]

theorem addChannel_capacity_witness :
    (addChannels emptyMux tenNames).map (fun m => m.channels.length) = some 10 ∧
    (addChannels emptyMux tenNames).map (fun m => addChannel m ("y".toList)) =
      some (.error .channelLimitExceeded) := by
  obtain ⟨full, hfull, hlen, hfail⟩ :=
    (addChannel_capacity emptyMux ("y".toList)).2.2 tenNames rfl (by decide)
  rw [hfull]
  simp [hlen, hfail]

/-- C4: an inbound message carrying id e is routed as a response. When a
channel exists at index e mod 10, no error is raised, no channel state
changes, that channel's subscribers all receive the message with its id
rewritten to e div 10 (no domain gating is consulted), and every other
channel's delivery list is empty; when no channel exists at that index,
onMessage throws unknownChannelForResponse. -/
theorem response_routing_exclusive (mux : CRDPMultiplexor) (msg : Message) (e : Nat)
    (hid : msg.id? = some e) :
    (∀ ch, mux.channels[e % 10]? = some ch →
       (onMessage mux msg).error = none ∧
       (onMessage mux msg).channels = mux.channels ∧
       (onMessage mux msg).delivered[e % 10]? =
         some (ch.messageCallbacks.map (fun cb =>
           (cb, { id? := some (e / 10), method? := msg.method?, rest := msg.rest }))) ∧
       (∀ k, k < mux.channels.length → ¬ k = e % 10 →
          (onMessage mux msg).delivered[k]? = some [])) ∧
    (mux.channels[e % 10]? = none →
       (onMessage mux msg).error = some (.unknownChannelForResponse e) ∧
       (onMessage mux msg).channels = mux.channels ∧
       (∀ k : Nat, (onMessage mux msg).delivered[k]? =
               (some [] : Option (List (Callback × Message))) ∨
             (onMessage mux msg).delivered[k]? = none)) := by
  constructor
  · intro ch hch
    have hlt : e % 10 < mux.channels.length := by
      by_contra hge
      rw [List.getElem?_eq_none (by omega)] at hch
      exact Option.noConfusion hch
    unfold onMessage onResponseMessage decodifyChannelId decodifyId
    rw [hid]
    simp only [hch]
    refine ⟨by trivial, by trivial, ?_, ?_⟩
    · simp [callMessageCallbacks, List.getElem?_range, hlt]
    · intro k hk hne
      simp [List.getElem?_range, hk, hne]
  · intro hch
    unfold onMessage onResponseMessage decodifyChannelId
    rw [hid]
    simp only [hch]
    refine ⟨by trivial, by trivial, ?_⟩
    intro k
    rw [List.getElem?_map]
    cases mux.channels[k]? with
    | none => right; rfl
    | some c => left; rfl

theorem response_routing_exclusive_witness :
    (onMessage sampleMux { id? := some 11, method? := none, rest := "" }).delivered[11 % 10]? =
      some (toolsChannel1.messageCallbacks.map (fun cb =>
        (cb, { id? := some (11 / 10), method? := none, rest := "" }))) ∧
    (onMessage sampleMux { id? := some 13, method? := none, rest := "" }).error =
      some (.unknownChannelForResponse 13) := by
  constructor
  · exact ((response_routing_exclusive sampleMux
      { id? := some 11, method? := none, rest := "" } 11 rfl).1 toolsChannel1
      (by decide)).2.2.1
  · exact ((response_routing_exclusive sampleMux
      { id? := some 13, method? := none, rest := "" } 13 rfl).2 (by decide)).1

/-- C2 counterexample: with suppression substring "tools" configured,
the inbound notification Runtime.evalDebugger has domain Runtime, not
Debugger, yet channel "tools" (index 1) is skipped — nothing delivered,
nothing buffered, state unchanged — because the source tests
indexOf("Debugger") on the whole method name, not equality on the
domain; the unsuppressed channel at index 0 buffers the payload as the
claim expects. -/
theorem suppression_domain_only_counterexample :
    extractDomain ("Runtime.evalDebugger".toList) = .ok ("Runtime".toList) ∧
    ¬ ("Runtime".toList = "Debugger".toList) ∧
    (onMessage sampleMux runtimeDebuggerMsg).error = none ∧
    (onMessage sampleMux runtimeDebuggerMsg).channels[1]? = some toolsChannel1 ∧
    (onMessage sampleMux runtimeDebuggerMsg).delivered[1]? =
      (some [] : Option (List (Callback × Message))) ∧
    (onMessage sampleMux runtimeDebuggerMsg).channels[0]? =
      some { debuggerChannel0 with
        pendingMessagesForDomain := some [("Runtime".toList, [runtimeDebuggerMsg])] } := by
  refine ⟨rfl, by decide, by decide, by decide, by decide, by decide⟩

theorem fanOut_getElem (configured : Option Str) (domain method : Str) (msg : Message) :
    ∀ (chs : List CRDPChannel) (k : Nat) (ch : CRDPChannel), chs[k]? = some ch →
      ((fanOut configured domain method msg chs).1[k]? =
        some (if suppressCheck configured ch.name method then ch
              else (callDomainMessageCallbacks ch domain msg).1)) ∧
      ((fanOut configured domain method msg chs).2[k]? =
        some (if suppressCheck configured ch.name method then []
              else (callDomainMessageCallbacks ch domain msg).2)) := by
  intro chs
  induction chs with
  | nil =>
    intro k ch hch
    simp at hch
  | cons c rest ih =>
    intro k ch hch
    cases k with
    | zero =>
      simp only [List.getElem?_cons_zero, Option.some.injEq] at hch
      cases hch
      cases hs : suppressCheck configured c.name method with
      | true => simp [fanOut, hs]
      | false => simp [fanOut, hs]
    | succ k2 =>
      simp only [List.getElem?_cons_succ] at hch
      have := ih k2 ch hch
      cases hs : suppressCheck configured c.name method with
      | true => simpa [fanOut, hs] using this
      | false => simpa [fanOut, hs] using this

/-- C2 amended: during the notification fan-out a channel is bypassed
(state unchanged, nothing delivered, nothing buffered) exactly when the
suppression substring is configured and non-empty, occurs in the
channel's name, and the string "Debugger" occurs anywhere in the full
method name; otherwise the channel is handed to its domain-gated
delivery. In particular a notification whose method does not contain
"Debugger" is never suppressed for any channel (the source tests a
substring of the method, not equality with the domain). -/
theorem suppression_substring_characterization (mux : CRDPMultiplexor)
    (method : Str) (msg : Message) (domain : Str) (k : Nat) (ch : CRDPChannel)
    (hdom : extractDomain method = .ok domain)
    (hch : mux.channels[k]? = some ch) :
    (suppressCheck mux.channelWithNoDebuggerNotification ch.name method = true →
       (onDomainNotification mux method msg).channels[k]? = some ch ∧
       (onDomainNotification mux method msg).delivered[k]? =
         (some [] : Option (List (Callback × Message)))) ∧
    (suppressCheck mux.channelWithNoDebuggerNotification ch.name method = false →
       (onDomainNotification mux method msg).channels[k]? =
         some (callDomainMessageCallbacks ch domain msg).1 ∧
       (onDomainNotification mux method msg).delivered[k]? =
         some (callDomainMessageCallbacks ch domain msg).2) ∧
    (occursIn ("Debugger".toList) method = false →
       suppressCheck mux.channelWithNoDebuggerNotification ch.name method = false) := by
  have hfan := fanOut_getElem mux.channelWithNoDebuggerNotification domain method msg
    mux.channels k ch hch
  refine ⟨?_, ?_, ?_⟩
  · intro hs
    unfold onDomainNotification
    simp only [hdom]
    rw [hs] at hfan
    simpa using hfan
  · intro hs
    unfold onDomainNotification
    simp only [hdom]
    rw [hs] at hfan
    simpa using hfan
  · intro hocc
    unfold suppressCheck
    cases mux.channelWithNoDebuggerNotification with
    | none => rfl
    | some sub =>
      simp [hocc]
      intro _ _
      simpa using hocc

theorem suppression_substring_characterization_witness :
    (onDomainNotification sampleMux ("Runtime.evalDebugger".toList)
        runtimeDebuggerMsg).channels[1]? = some toolsChannel1 ∧
    (onDomainNotification sampleMux ("Runtime.evalDebugger".toList)
        runtimeDebuggerMsg).delivered[1]? =
      (some [] : Option (List (Callback × Message))) ∧
    (onDomainNotification sampleMux ("Runtime.evalDebugger".toList)
        runtimeDebuggerMsg).channels[0]? =
      some (callDomainMessageCallbacks debuggerChannel0
        ("Runtime".toList) runtimeDebuggerMsg).1 := by
  have h1 := (suppression_substring_characterization sampleMux
    ("Runtime.evalDebugger".toList) runtimeDebuggerMsg ("Runtime".toList) 1
    toolsChannel1 rfl (by decide)).1 (by decide)
  have h0 := ((suppression_substring_characterization sampleMux
    ("Runtime.evalDebugger".toList) runtimeDebuggerMsg ("Runtime".toList) 0
    debuggerChannel0 rfl (by decide)).2.1 (by decide)).1
  exact ⟨h1.1, h1.2, h0⟩

/-- C3 counterexample: a channel with a buffered Network notification
but zero subscribers sends Network.enable successfully, yet nothing is
flushed and the buffer is not cleared; once a subscriber appears, a
second Network.enable does flush the old payload — the flush is neither
unconditional in the subscriber count nor once-only. -/
theorem enable_flush_no_subscribers_counterexample :
    (bufferedToolsChannel.send netEnableMsg).error = none ∧
    (bufferedToolsChannel.send netEnableMsg).delivered = [] ∧
    (bufferedToolsChannel.send netEnableMsg).channel.pendingMessagesForDomain =
      some [("Network".toList, [netNotifyMsg])] ∧
    ({ (bufferedToolsChannel.send netEnableMsg).channel with
        messageCallbacks := [4] }.send netEnableMsg).delivered = [(4, netNotifyMsg)] := by
  refine ⟨by decide, by decide, by decide, by decide⟩

theorem flush_foldl (domain : Str) (c : CRDPChannel)
    (hc : c.enabledDomains.contains domain = true) :
    ∀ (msgs : List Message) (acc : List (Callback × Message)),
      msgs.foldl (fun acc2 m =>
        let step := callDomainMessageCallbacks acc2.1 domain m
        (step.1, acc2.2 ++ step.2)) (c, acc) =
      (c, acc ++ msgs.flatMap (fun b => c.messageCallbacks.map (fun cb => (cb, b)))) := by
  intro msgs
  induction msgs with
  | nil =>
    intro acc
    simp
  | cons m rest ih =>
    intro acc
    rw [List.foldl_cons]
    have hstep : callDomainMessageCallbacks c domain m = (c, callMessageCallbacks c m) := by
      unfold callDomainMessageCallbacks
      rw [if_pos hc]
    simp only [hstep]
    rw [ih]
    simp [callMessageCallbacks]

theorem send_enable_reduce (ch : CRDPChannel) (msg : Message)
    (m domain : Str) (i : Nat) (hm : msg.method? = some m)
    (hsuf : (".enable".toList).isSuffixOf m = true)
    (hdom : extractDomain m = .ok domain) (hid : msg.id? = some i) :
    ch.send msg =
      { channel := (sendUnsentPendingMessages
          { ch with enabledDomains := enableDomain ch.enabledDomains domain } domain).1,
        transported := some { msg with id? := some (encodifyChannel ch.id i) },
        delivered := (sendUnsentPendingMessages
          { ch with enabledDomains := enableDomain ch.enabledDomains domain } domain).2,
        error := none } := by
  unfold CRDPChannel.send CRDPMultiplexor.send
  rw [hm]
  simp only [hsuf, hdom, hid, if_true]

theorem flush_reduce_subscribers (ch : CRDPChannel) (domain : Str)
    (table : List (Str × List Message)) (buffered : List Message)
    (htable : ch.pendingMessagesForDomain = some table)
    (hb : lookupDomain table domain = some buffered)
    (hne : ¬ ch.messageCallbacks = [])
    (henabled : ch.enabledDomains.contains domain = true) :
    sendUnsentPendingMessages ch domain =
      ({ ch with pendingMessagesForDomain := some (eraseDomain table domain) },
       buffered.flatMap (fun b => ch.messageCallbacks.map (fun cb => (cb, b)))) := by
  unfold sendUnsentPendingMessages
  simp only [htable, hb]
  rw [if_pos (by simpa using hne)]
  rw [flush_foldl domain _ (by simpa using henabled)]
  simp

theorem send_enable_delivered_empty (ch : CRDPChannel) (msg : Message)
    (m domain : Str) (i : Nat) (hm : msg.method? = some m)
    (hsuf : (".enable".toList).isSuffixOf m = true)
    (hdom : extractDomain m = .ok domain) (hid : msg.id? = some i)
    (hnb : ∀ t, ch.pendingMessagesForDomain = some t →
        lookupDomain t domain = none) :
    (ch.send msg).delivered = [] := by
  rw [send_enable_reduce ch msg m domain i hm hsuf hdom hid]
  unfold sendUnsentPendingMessages
  cases hp : ch.pendingMessagesForDomain with
  | none => simp [hp]
  | some t => simp [hp, hnb t hp]

/-- C3 amended: sending a ".enable" message for domain D flushes D's
buffered sequence to the subscribers in original arrival order, clears
D's buffer, and a second enable of D flushes nothing — provided at
least one subscriber is registered at the time of the enable; with zero
subscribers the send succeeds but the buffer is neither flushed nor
cleared (and can still be flushed by a later enable). -/
theorem enable_flush_with_subscribers (ch : CRDPChannel) (msg : Message)
    (m domain : Str) (i : Nat) (table : List (Str × List Message))
    (hm : msg.method? = some m) (hsuf : (".enable".toList).isSuffixOf m = true)
    (hdom : extractDomain m = .ok domain) (hid : msg.id? = some i)
    (htable : ch.pendingMessagesForDomain = some table) :
    (∀ buffered, lookupDomain table domain = some buffered →
       ¬ ch.messageCallbacks = [] →
       (ch.send msg).delivered =
         buffered.flatMap (fun b => ch.messageCallbacks.map (fun cb => (cb, b))) ∧
       (ch.send msg).channel.pendingMessagesForDomain =
         some (eraseDomain table domain) ∧
       lookupDomain (eraseDomain table domain) domain = none ∧
       ((ch.send msg).channel.send msg).delivered = []) ∧
    (ch.messageCallbacks = [] →
       (ch.send msg).delivered = [] ∧
       (ch.send msg).channel.pendingMessagesForDomain = some table) := by
  constructor
  · intro buffered hb hne
    have hflush := flush_reduce_subscribers
      { ch with enabledDomains := enableDomain ch.enabledDomains domain }
      domain table buffered htable hb hne
      (enableDomain_contains ch.enabledDomains domain)
    have hsend := send_enable_reduce ch msg m domain i hm hsuf hdom hid
    have hchan : (ch.send msg).channel.pendingMessagesForDomain =
        some (eraseDomain table domain) := by
      rw [hsend, hflush]
    have hdel : (ch.send msg).delivered =
        buffered.flatMap (fun b => ch.messageCallbacks.map (fun cb => (cb, b))) := by
      rw [hsend, hflush]
    refine ⟨hdel, hchan, lookupDomain_eraseDomain table domain, ?_⟩
    exact send_enable_delivered_empty _ msg m domain i hm hsuf hdom hid
      (fun t ht => by
        rw [hchan] at ht
        cases ht
        exact lookupDomain_eraseDomain table domain)
  · intro hz
    rw [send_enable_reduce ch msg m domain i hm hsuf hdom hid]
    unfold sendUnsentPendingMessages
    simp only [htable]
    cases hl : lookupDomain table domain with
    | none => exact ⟨rfl, rfl⟩
    | some buffered =>
      simp [hz]

theorem enable_flush_with_subscribers_witness :
    (subscribedToolsChannel.send netEnableMsg).delivered = [(4, netNotifyMsg)] ∧
    (subscribedToolsChannel.send netEnableMsg).channel.pendingMessagesForDomain =
      some [] ∧
    ((subscribedToolsChannel.send netEnableMsg).channel.send netEnableMsg).delivered =
      [] := by
  obtain ⟨h1, h2, _, h4⟩ := (enable_flush_with_subscribers subscribedToolsChannel
    netEnableMsg ("Network.enable".toList) ("Network".toList) 1
    [("Network".toList, [netNotifyMsg])] rfl (by decide) rfl rfl rfl).1
    [netNotifyMsg] (by decide) (by decide)
  refine ⟨by rw [h1]; decide, by rw [h2]; decide, h4⟩

theorem send_pending_none (ch : CRDPChannel) (msg : Message)
    (h : ch.pendingMessagesForDomain = none) :
    (ch.send msg).channel.pendingMessagesForDomain = none ∧
    (ch.send msg).delivered = [] := by
  unfold CRDPChannel.send CRDPMultiplexor.send
  cases hm : msg.method? with
  | none => cases hid : msg.id? <;> simp [h]
  | some m =>
    cases hsuf : (".enable".toList).isSuffixOf m with
    | false =>
      have hsuf2 : ¬ (".enable".toList <:+ m) := by
        intro hc
        rw [← List.isSuffixOf_iff_suffix, hsuf] at hc
        simp at hc
      have hsuf3 : ¬ (['.', 'e', 'n', 'a', 'b', 'l', 'e'] <:+ m) := hsuf2
      cases hid : msg.id? <;> simp [hsuf3, h]
    | true =>
      have hsuf2 : (['.', 'e', 'n', 'a', 'b', 'l', 'e'] <:+ m) :=
        List.isSuffixOf_iff_suffix.mp hsuf
      cases hdom : extractDomain m with
      | error e => simp [hsuf2, hdom, h]
      | ok domain =>
        unfold sendUnsentPendingMessages
        cases hid : msg.id? <;> simp [hsuf2, hdom, h]

theorem applyOp_tombstone (s0 : TimedChannel) (now : Nat) (op : ChannelOp)
    (h : s0.ch.pendingMessagesForDomain = none) :
    (applyOp s0 now op).1.ch.pendingMessagesForDomain = none ∧
    ∀ p ∈ (applyOp s0 now op).2, opPayload op = some p.2 := by
  cases op with
  | onMessage cb => simp [applyOp, channelOn, h]
  | removeMessageListener cb => simp [applyOp, h]
  | sendMsg msg =>
    have hs := send_pending_none s0.ch msg h
    constructor
    · simpa [applyOp] using hs.1
    · intro p hp
      simp [applyOp, hs.2] at hp
  | domainNotify method msg =>
    cases hdom : extractDomain method with
    | error e => simp [applyOp, hdom, h]
    | ok domain =>
      unfold applyOp callDomainMessageCallbacks
      by_cases he : domain ∈ s0.ch.enabledDomains
      · simp [hdom, he, callMessageCallbacks, opPayload, h]
      · simp [hdom, he, h]
  | responseDelivery msg =>
    simp [applyOp, h, callMessageCallbacks, opPayload]

theorem fire_preserves_none (s : TimedChannel) (now : Nat)
    (h : s.ch.pendingMessagesForDomain = none) :
    (fireDueTimers now s).ch.pendingMessagesForDomain = none := by
  unfold fireDueTimers
  by_cases ha : s.timers.any (fun d => d ≤ now) = true <;>
    simp [ha, discardUnsentPendingMessages, h]

theorem fire_discards (s : TimedChannel) (d now : Nat)
    (hd : d ∈ s.timers) (hnow : d ≤ now) :
    (fireDueTimers now s).ch.pendingMessagesForDomain = none := by
  unfold fireDueTimers
  have ha : s.timers.any (fun x => x ≤ now) = true :=
    List.any_eq_true.mpr ⟨d, hd, by simpa using hnow⟩
  simp [ha, discardUnsentPendingMessages]

theorem step_tombstone (s : TimedChannel) (now : Nat) (op : ChannelOp)
    (h : s.ch.pendingMessagesForDomain = none) :
    (stepAt s now op).1.ch.pendingMessagesForDomain = none ∧
    ∀ p ∈ (stepAt s now op).2, opPayload op = some p.2 := by
  unfold stepAt
  exact applyOp_tombstone (fireDueTimers now s) now op (fire_preserves_none s now h)

theorem execTrace_tombstone (trace : List (Nat × ChannelOp)) :
    ∀ s : TimedChannel, s.ch.pendingMessagesForDomain = none →
      (execTrace s trace).1.ch.pendingMessagesForDomain = none ∧
      ∀ p ∈ (execTrace s trace).2, ∃ q ∈ trace, opPayload q.2 = some p.2 := by
  induction trace with
  | nil =>
    intro s h
    simp [execTrace, h]
  | cons tq rest ih =>
    intro s h
    obtain ⟨t, op⟩ := tq
    have hstep := step_tombstone s t op h
    unfold execTrace
    constructor
    · exact (ih _ hstep.1).1
    · intro p hp
      simp only [List.mem_append] at hp
      rcases hp with hp1 | hp2
      · exact ⟨(t, op), by simp, hstep.2 p hp1⟩
      · obtain ⟨q, hq, hqp⟩ := (ih _ hstep.1).2 p hp2
        exact ⟨q, by simp [hq], hqp⟩

theorem timer_persists (s : TimedChannel) (d now : Nat) (op : ChannelOp)
    (hd : d ∈ s.timers) (hnow : now < d) :
    d ∈ (stepAt s now op).1.timers := by
  have hfire : d ∈ (fireDueTimers now s).timers := by
    unfold fireDueTimers
    by_cases ha : s.timers.any (fun x => x ≤ now) = true
    · simp only [ha, if_pos]
      simp only [List.mem_filter]
      refine ⟨hd, by simp; omega⟩
    · simp [ha, hd]
  unfold stepAt
  cases op with
  | onMessage cb =>
    unfold applyOp channelOn
    by_cases hc : (fireDueTimers now s).ch.messageCallbacks.length = 0
    · simp only [hc, if_pos]
      simp [hfire]
    · simp [hc, hfire]
  | removeMessageListener cb => simpa [applyOp] using hfire
  | sendMsg msg => simpa [applyOp] using hfire
  | domainNotify method msg =>
    cases hdom : extractDomain method with
    | error e => simpa [applyOp, hdom] using hfire
    | ok domain => simpa [applyOp, hdom] using hfire
  | responseDelivery msg => simpa [applyOp] using hfire

/-- C8: (1) a channel's first "message" subscription at time T schedules
a discard at exactly T + 60000 ms; (2) the scheduled deadline survives
every operation processed strictly before it; (3) processing any
operation at or after a scheduled deadline first discards all of the
channel's buffered per-domain sequences (the buffer table becomes the
null tombstone before the operation acts); (4) once tombstoned, the
channel stays tombstoned through any further trace, and every payload
then delivered to a subscriber comes from an operation of that later
trace — the discarded notifications are never delivered, even if their
domain is enabled afterwards. -/
theorem eviction_timer_discards (s : TimedChannel) (tm : Nat) (cb : Callback) :
    (s.ch.messageCallbacks = [] → s.timers = [] →
       (stepAt s tm (.onMessage cb)).1.timers = [tm + timeToPreserveMessagesInMillis] ∧
       timeToPreserveMessagesInMillis = 60000) ∧
    (∀ (d : Nat) (op : ChannelOp), d ∈ s.timers → tm < d →
       d ∈ (stepAt s tm op).1.timers) ∧
    (∀ (d : Nat) (op : ChannelOp), d ∈ s.timers → d ≤ tm →
       (fireDueTimers tm s).ch.pendingMessagesForDomain = none ∧
       (stepAt s tm op).1.ch.pendingMessagesForDomain = none) ∧
    (s.ch.pendingMessagesForDomain = none →
       ∀ trace : List (Nat × ChannelOp),
         (execTrace s trace).1.ch.pendingMessagesForDomain = none ∧
         ∀ p ∈ (execTrace s trace).2, ∃ q ∈ trace, opPayload q.2 = some p.2) := by
  refine ⟨?_, ?_, ?_, ?_⟩
  · intro hsub htim
    unfold stepAt fireDueTimers applyOp channelOn
    refine ⟨by simp [htim, hsub], by unfold timeToPreserveMessagesInMillis; rfl⟩
  · intro d op hd hlt
    exact timer_persists s d tm op hd hlt
  · intro d op hd hle
    refine ⟨fire_discards s d tm hd hle, ?_⟩
    unfold stepAt
    exact (applyOp_tombstone (fireDueTimers tm s) tm op
      (fire_discards s d tm hd hle)).1
  · intro h trace
    exact execTrace_tombstone trace s h

theorem eviction_timer_discards_witness :
    ((stepAt virginTimedChannel 0 (.onMessage 9)).1.timers =
       [0 + timeToPreserveMessagesInMillis] ∧
     timeToPreserveMessagesInMillis = 60000) ∧
    (fireDueTimers 60000 scheduledTimedChannel).ch.pendingMessagesForDomain = none ∧
    (stepAt scheduledTimedChannel 60000 (.sendMsg netEnableMsg)).1.ch.pendingMessagesForDomain =
      none ∧
    (execTrace tombstonedTimedChannel
      [(70000, .sendMsg netEnableMsg)]).1.ch.pendingMessagesForDomain = none := by
  have h1 := (eviction_timer_discards virginTimedChannel 0 9).1 rfl rfl
  have h3 := (eviction_timer_discards scheduledTimedChannel 60000 9).2.2.1 60000
    (.sendMsg netEnableMsg) (by decide) (by decide)
  have h4 := ((eviction_timer_discards tombstonedTimedChannel 0 9).2.2.2 rfl
    [(70000, .sendMsg netEnableMsg)]).1
  exact ⟨h1, h3.1, h3.2, h4⟩
